import Mathlib

/-!
# Graflow workflow engine — formal model

The repository is the documentation site of the Graflow workflow engine
(a hybrid DAG / state-machine task scheduler with channels, checkpoints
and BSP parallel groups).  The engine's implementation is not part of the
repository; its behaviour is documented in the markdown sources under
`src/docs` and `src/unnamed`.  This file gives a shallow embedding of the
documented data model and operations, and proves the testable properties
stated in the specification against that model.  Every definition carries
a note of the documentation it is modelled from.
-/

/-- Task identifier (unique within a graph). -/
abbrev TaskId := String

/-- Modelled from the spec: channel values are arbitrary structured values;
we model scalars and lists (lists arise from `append`/`prepend`). -/
inductive Val where
  | int (n : Int)
  | str (s : String)
  | bool (b : Bool)
  | list (xs : List Val)

/-- Modelled from the spec: a channel entry is a value with an optional
absolute expiry instant (set-time plus TTL seconds). -/
structure Entry where
  value : Val
  expiresAt : Option Nat

/-- Modelled from the spec: a Channel is a namespaced key-value store;
we model the in-process backend as an association list keyed by strings. -/
structure Channel where
  entries : List (String × Entry)

/-- The empty channel. -/
def Channel.empty : Channel := ⟨[]⟩

/-- An entry is expired at `now` when its expiry instant has been reached. -/
def Entry.expired (e : Entry) (now : Nat) : Bool :=
  match e.expiresAt with
  | Option.none => false
  | Option.some t => decide (t ≤ now)

/-- Remove every binding of `key` from an entry list. -/
def removeKey (l : List (String × Entry)) (key : String) : List (String × Entry) :=
  l.filter (fun p => p.1 != key)

/-- Modelled from the spec: `set(key, value, ttl)` stores `value` under `key`;
a TTL of `s` seconds at time `now` yields expiry instant `now + s`. -/
def Channel.set (ch : Channel) (key : String) (v : Val) (ttl : Option Nat) (now : Nat) :
    Channel :=
  ⟨(key, ⟨v, ttl.map (fun s => now + s)⟩) :: removeKey ch.entries key⟩

/-- Lazily-evaluated lookup: an expired entry behaves as absent
(spec: "reading an expired key behaves as absent"). -/
def Channel.liveLookup (ch : Channel) (key : String) (now : Nat) : Option Val :=
  match ch.entries.lookup key with
  | Option.none => Option.none
  | Option.some e => if e.expired now then Option.none else Option.some e.value

/-- Modelled from the spec: `get(key, default)` returns the stored value, or the
default when the key is absent or expired; a read past expiry removes the
entry (lazy TTL evaluation), so the updated channel is returned as well. -/
def Channel.get (ch : Channel) (key : String) (dft : Option Val) (now : Nat) :
    Option Val × Channel :=
  match ch.entries.lookup key with
  | Option.none => (dft, ch)
  | Option.some e =>
      if e.expired now then (dft, ⟨removeKey ch.entries key⟩)
      else (Option.some e.value, ch)

/-- Modelled from the spec: `exists(key)` — true iff the key is present and
not expired; a read past expiry removes the entry. -/
def Channel.key_exists (ch : Channel) (key : String) (now : Nat) : Bool × Channel :=
  match ch.entries.lookup key with
  | Option.none => (false, ch)
  | Option.some e =>
      if e.expired now then (false, ⟨removeKey ch.entries key⟩)
      else (true, ch)

/-- Modelled from the spec: `delete(key)` removes a key. -/
def Channel.delete (ch : Channel) (key : String) : Channel :=
  ⟨removeKey ch.entries key⟩

/-- The current list stored under `key`: a live list value is itself, a live
scalar is treated as a one-element list, an absent or expired key as `[]`. -/
def Channel.currentList (ch : Channel) (key : String) (now : Nat) : List Val :=
  match ch.liveLookup key now with
  | Option.some (Val.list xs) => xs
  | Option.some v => [v]
  | Option.none => []

/-- Modelled from the spec: `append(key, value, ttl)` appends to the end of the
list stored at `key` (creating `[value]` for an unbound key). -/
def Channel.append (ch : Channel) (key : String) (v : Val) (ttl : Option Nat) (now : Nat) :
    Channel :=
  ch.set key (Val.list (ch.currentList key now ++ [v])) ttl now

/-- Modelled from the spec: `prepend(key, value, ttl)` prepends to the beginning
of the list stored at `key` (creating `[value]` for an unbound key). -/
def Channel.prepend (ch : Channel) (key : String) (v : Val) (ttl : Option Nat) (now : Nat) :
    Channel :=
  ch.set key (Val.list (v :: ch.currentList key now)) ttl now

/-- Modelled from the spec: the Task Graph is a set of task nodes plus directed
dependency edges, both listed in insertion order. -/
structure TaskGraph where
  nodes : List TaskId
  edges : List (TaskId × TaskId)

/-- Modelled from the spec: `successors(id)` — ordered sequence of directly
dependent node ids (insertion order). -/
def TaskGraph.successors (g : TaskGraph) (t : TaskId) : List TaskId :=
  (g.edges.filter (fun e => e.1 == t)).map (fun e => e.2)

/-- Nodes with no incoming edges (no predecessors). -/
def TaskGraph.roots (g : TaskGraph) : List TaskId :=
  g.nodes.filter (fun n => g.edges.all (fun e => e.2 != n))

/-- Error taxonomy.  `GraphCompilationError` is the error the documentation
assigns to start-node auto-detection failure (zero or multiple candidate
nodes); `AmbiguousStartError` is the name used by the specification text;
`GraflowWorkflowCanceledError` is raised by `cancel_workflow`. -/
inductive GraflowError where
  | GraphCompilationError
  | AmbiguousStartError
  | GraflowWorkflowCanceledError (reason : String)
deriving DecidableEq, Repr

/-- Modelled from the spec: start-node auto-detection.  Finds all nodes with no
incoming edges; exactly one found — use it; none or multiple found — raise
`GraphCompilationError` (per the documented auto-detection rules). -/
def TaskGraph.resolve_start (g : TaskGraph) : Except GraflowError TaskId :=
  match g.roots with
  | [n] => Except.ok n
  | _ => Except.error GraflowError.GraphCompilationError

/-- Modelled from the spec: status of a run — still running, ended successfully
by `terminate_workflow(reason)`, or aborted by `cancel_workflow(reason)`
(which raises `GraflowWorkflowCanceledError` carrying the reason). -/
inductive RunStatus where
  | running
  | terminated (reason : String)
  | canceled (reason : String)
deriving DecidableEq, Repr

/-- Modelled from the spec: the control directive a task handler may issue
during execution: nothing (normal flow), `cancel_workflow(reason)`,
`terminate_workflow(reason)`, `next_task(target, goto)` (a jump carrying a
skip-successors flag), or `next_iteration()` (a self-loop). -/
inductive Directive where
  | normal
  | cancel (reason : String)
  | terminate (reason : String)
  | jump (target : TaskId) (skipSuccessors : Bool)
  | selfLoop
deriving DecidableEq, Repr

/-- Modelled from the spec: the Execution Context — aggregate state of one
workflow run: graph, channel, pending task queue (FIFO of task ids standing
for task specs), completed-task set, per-task cycle counters, run status. -/
structure ExecutionContext where
  graph : TaskGraph
  channel : Channel
  queue : List TaskId
  completed : List TaskId
  cycleCounts : List (TaskId × Nat)
  status : RunStatus

/-- Read a task's cycle counter (0 when the task has never looped). -/
def getCycleCount (m : List (TaskId × Nat)) (t : TaskId) : Nat :=
  match m.lookup t with
  | Option.some n => n
  | Option.none => 0

/-- Increment a task's cycle counter by one. -/
def incrCycle (m : List (TaskId × Nat)) (t : TaskId) : List (TaskId × Nat) :=
  (t, getCycleCount m t + 1) :: m.filter (fun p => p.1 != t)

/-- Insert a task id into the completed set (idempotently). -/
def insertCompleted (l : List TaskId) (t : TaskId) : List TaskId :=
  if l.contains t then l else t :: l

/-- Modelled from the spec: `is_completed(task_id)` on the Execution Context. -/
def ExecutionContext.is_completed (ctx : ExecutionContext) (t : TaskId) : Bool :=
  ctx.completed.contains t

/-- Modelled from the spec: after the handler of the dequeued task `t` returns
(here `ctx.queue` is the queue with `t` already dequeued), the engine applies
the issued control directive in the documented priority order:
cancel — task not marked completed, run status becomes canceled with the
caller-supplied reason; terminate — task marked completed, run ends
successfully, no successors enqueued; jump — task marked completed, only the
target enqueued when the skip flag is set, else the target in addition to the
normal successors; self-loop — task marked completed for bookkeeping, cycle
counter incremented, the task itself re-enqueued; normal — task marked
completed and all graph successors enqueued. -/
def applyDirective (ctx : ExecutionContext) (t : TaskId) (d : Directive) :
    ExecutionContext :=
  match d with
  | Directive.cancel r =>
      ⟨ctx.graph, ctx.channel, ctx.queue, ctx.completed, ctx.cycleCounts,
        RunStatus.canceled r⟩
  | Directive.terminate r =>
      ⟨ctx.graph, ctx.channel, ctx.queue, insertCompleted ctx.completed t,
        ctx.cycleCounts, RunStatus.terminated r⟩
  | Directive.jump target skip =>
      ⟨ctx.graph, ctx.channel,
        ctx.queue ++ (if skip then [target] else target :: ctx.graph.successors t),
        insertCompleted ctx.completed t, ctx.cycleCounts, ctx.status⟩
  | Directive.selfLoop =>
      ⟨ctx.graph, ctx.channel, ctx.queue ++ [t], insertCompleted ctx.completed t,
        incrCycle ctx.cycleCounts t, ctx.status⟩
  | Directive.normal =>
      ⟨ctx.graph, ctx.channel, ctx.queue ++ ctx.graph.successors t,
        insertCompleted ctx.completed t, ctx.cycleCounts, ctx.status⟩

/-- Modelled from the spec: one iteration of the engine's main loop — dequeue
the head task spec, run its handler (abstracted as the directive `d` it
issues), then apply the directive.  An empty queue leaves the context
unchanged. -/
def engineStep (ctx : ExecutionContext) (d : Directive) : ExecutionContext :=
  match ctx.queue with
  | [] => ctx
  | t :: rest =>
      applyDirective
        ⟨ctx.graph, ctx.channel, rest, ctx.completed, ctx.cycleCounts, ctx.status⟩ t d

/-- Iterate the engine loop over a list of handler directives. -/
def engineSteps (ctx : ExecutionContext) (ds : List Directive) : ExecutionContext :=
  match ds with
  | [] => ctx
  | d :: ds2 => engineSteps (engineStep ctx d) ds2

/-- Modelled from the spec: a checkpoint — immutable snapshot of an Execution
Context at a completed-task boundary: graph shape, channel contents (memory
backend), completed task ids, cycle counts, pending task specs. -/
structure Checkpoint where
  graphShape : TaskGraph
  channelData : Channel
  completed_tasks : List TaskId
  cycle_counts : List (TaskId × Nat)
  pending_tasks : List TaskId

/-- Modelled from the spec: `CheckpointManager.create_checkpoint(context)` —
serializes graph shape, channel contents, completed set, cycle counts and
pending specs.  Never invoked mid-task. -/
def create_checkpoint (ctx : ExecutionContext) : Checkpoint :=
  ⟨ctx.graph, ctx.channel, ctx.completed, ctx.cycleCounts, ctx.queue⟩

/-- Modelled from the spec: `CheckpointManager.resume_from_checkpoint(path)` —
deserializes into a fresh Execution Context, re-enqueuing the persisted
pending specs. -/
def resume_from_checkpoint (cp : Checkpoint) : ExecutionContext :=
  ⟨cp.graphShape, cp.channelData, cp.pending_tasks, cp.completed_tasks,
    cp.cycle_counts, RunStatus.running⟩

/-- Modelled from the spec: the closed set of group execution policies —
Strict (default), BestEffort, AtLeastN(min_success), and
Critical(critical_task_ids). -/
inductive GroupPolicy where
  | strict
  | bestEffort
  | atLeastN (min_success : Nat)
  | critical (critical_task_ids : List TaskId)
deriving DecidableEq, Repr

/-- Outcome of a parallel group: overall success plus the recorded succeeded
and failed branch ids. -/
structure GroupResult where
  success : Bool
  succeeded : List TaskId
  failed : List TaskId
deriving DecidableEq, Repr

/-- Modelled from the spec: the single dispatch function evaluating a group
policy over the succeeded/failed branch sets once the barrier has resolved:
Strict — all branches must have succeeded; BestEffort — the group succeeds
regardless, failures recorded not fatal; AtLeastN — at least `min_success`
branches succeeded; Critical — every branch in the critical subset
succeeded. -/
def evaluate_policy (p : GroupPolicy) (succeeded failed : List TaskId) : GroupResult :=
  match p with
  | GroupPolicy.strict => ⟨failed.isEmpty, succeeded, failed⟩
  | GroupPolicy.bestEffort => ⟨true, succeeded, failed⟩
  | GroupPolicy.atLeastN n => ⟨decide (n ≤ succeeded.length), succeeded, failed⟩
  | GroupPolicy.critical ids => ⟨ids.all (fun i => succeeded.contains i), succeeded, failed⟩

/-- Modelled from the spec: coordinator-side barrier state of one parallel
group — the barrier counter of branches that have reported completion, and
the list of task specs the coordinator has enqueued. -/
structure GroupState where
  arrived : Nat
  enqueued : List TaskId
deriving DecidableEq, Repr

/-- Modelled from the spec: a branch reporting completion atomically increments
the barrier counter; when the counter reaches the branch count the barrier
resolves and the coordinator enqueues the group's joint successor. -/
def report_completion (total : Nat) (joint : TaskId) (s : GroupState) : GroupState :=
  if s.arrived + 1 = total then ⟨s.arrived + 1, s.enqueued ++ [joint]⟩
  else ⟨s.arrived + 1, s.enqueued⟩

/-- Process a sequence of branch-completion events (an interleaving of the
branches' completions) starting from barrier state `s`. -/
def run_barrier_from (total : Nat) (joint : TaskId) (s : GroupState)
    (events : List TaskId) : GroupState :=
  match events with
  | [] => s
  | _ :: es => run_barrier_from total joint (report_completion total joint s) es

/-- Modelled from the spec: the barrier phase of a parallel group of
`total` branches, observed along one interleaving of branch completions;
the counter starts at zero and nothing is enqueued before the barrier. -/
def run_barrier (total : Nat) (joint : TaskId) (events : List TaskId) : GroupState :=
  run_barrier_from total joint ⟨0, []⟩ events

/-- Modelled from the spec: per-parameter resolution with priority
explicit injection > bound-at-creation value > channel-sourced value. -/
def resolve_parameter (injections bound : List (String × Val)) (ch : Channel)
    (now : Nat) (name : String) : Option Val :=
  match injections.lookup name with
  | Option.some v => Option.some v
  | Option.none =>
      match bound.lookup name with
      | Option.some v => Option.some v
      | Option.none => ch.liveLookup name now

/-! ## Basic lemmas about association-list lookup -/

theorem lookup_cons_self {β : Type} (k : String) (e : β) (l : List (String × β)) :
    ((k, e) :: l).lookup k = some e := by
  simp [List.lookup]

theorem lookup_filter_out {β : Type} (l : List (String × β)) (key : String) :
    (l.filter (fun p => p.1 != key)).lookup key = none := by
  induction l with
  | nil => rfl
  | cons p rest ih =>
      by_cases h : p.1 = key
      · simpa [List.filter_cons, h] using ih
      · have hb : (p.1 != key) = true := by simp [h]
        rw [List.filter_cons, hb]
        simp only [if_true]
        cases p with
        | mk k v =>
            simp only [List.lookup]
            rw [beq_false_of_ne (Ne.symm h)]
            exact ih

theorem lookup_removeKey_self (l : List (String × Entry)) (key : String) :
    (removeKey l key).lookup key = none :=
  lookup_filter_out l key

/-! ## Channel lemmas -/

theorem set_lookup_self (ch : Channel) (key : String) (v : Val) (ttl : Option Nat)
    (now : Nat) :
    (ch.set key v ttl now).entries.lookup key = some ⟨v, ttl.map (fun s => now + s)⟩ :=
  lookup_cons_self key _ (removeKey ch.entries key)

theorem liveLookup_set_self_noTtl (ch : Channel) (key : String) (v : Val) (now : Nat) :
    (ch.set key v Option.none now).liveLookup key now = Option.some v := by
  unfold Channel.liveLookup
  rw [set_lookup_self]
  rfl

theorem liveLookup_of_lookup_none (ch : Channel) (key : String) (now : Nat)
    (h : ch.entries.lookup key = none) : ch.liveLookup key now = Option.none := by
  unfold Channel.liveLookup
  rw [h]

theorem currentList_of_live_list (ch : Channel) (key : String) (now : Nat) (xs : List Val)
    (h : ch.liveLookup key now = Option.some (Val.list xs)) :
    ch.currentList key now = xs := by
  unfold Channel.currentList
  rw [h]

theorem currentList_of_live_none (ch : Channel) (key : String) (now : Nat)
    (h : ch.liveLookup key now = Option.none) :
    ch.currentList key now = [] := by
  unfold Channel.currentList
  rw [h]

theorem get_fst_of_live (ch : Channel) (key : String) (dft : Option Val) (now : Nat)
    (v : Val) (h : ch.liveLookup key now = Option.some v) :
    (ch.get key dft now).1 = Option.some v := by
  unfold Channel.liveLookup at h
  unfold Channel.get
  cases hl : ch.entries.lookup key with
  | none => rw [hl] at h; simp at h
  | some e =>
      rw [hl] at h
      by_cases he : e.expired now = true
      · simp [he] at h
      · simp [he] at h ⊢
        exact h

/-! ## Cycle-counter lemmas -/

theorem getCycleCount_incrCycle_self (m : List (TaskId × Nat)) (t : TaskId) :
    getCycleCount (incrCycle m t) t = getCycleCount m t + 1 := by
  unfold incrCycle getCycleCount
  rw [lookup_cons_self]

theorem insertCompleted_contains_self (l : List TaskId) (t : TaskId) :
    (insertCompleted l t).contains t = true := by
  unfold insertCompleted
  by_cases h : l.contains t = true
  · rw [if_pos h]; exact h
  · have h2 : l.contains t = false := by
      cases hh : l.contains t
      · rfl
      · exact absurd hh h
    rw [h2]
    simp

/-- Unfolding the engine loop on a nonempty queue. -/
theorem engineStep_cons (g : TaskGraph) (ch : Channel) (t : TaskId) (rest : List TaskId)
    (comp : List TaskId) (cyc : List (TaskId × Nat)) (st : RunStatus) (d : Directive) :
    engineStep ⟨g, ch, t :: rest, comp, cyc, st⟩ d =
      applyDirective ⟨g, ch, rest, comp, cyc, st⟩ t d := rfl

/-! ## Claim theorems -/

/-- C1: when a handler issues a cancel directive the engine does not mark the
task completed and the run terminates abnormally with a cancellation condition
carrying the caller-supplied reason; when a handler issues a terminate
directive the engine marks the task completed and the run ends successfully
with no successors enqueued. -/
theorem cancel_terminate_control_flow (ctx : ExecutionContext) (t : TaskId)
    (rest : List TaskId) (r r2 : String)
    (hq : ctx.queue = t :: rest) (hnc : ctx.is_completed t = false) :
    (engineStep ctx (Directive.cancel r)).is_completed t = false
    ∧ (engineStep ctx (Directive.cancel r)).status = RunStatus.canceled r
    ∧ (engineStep ctx (Directive.terminate r2)).is_completed t = true
    ∧ (engineStep ctx (Directive.terminate r2)).status = RunStatus.terminated r2
    ∧ (engineStep ctx (Directive.terminate r2)).queue = rest := by
  obtain ⟨g, ch, q, comp, cyc, st⟩ := ctx
  change q = t :: rest at hq
  change comp.contains t = false at hnc
  subst hq
  refine ⟨?_, rfl, ?_, rfl, rfl⟩
  · simpa [engineStep_cons, applyDirective, ExecutionContext.is_completed] using hnc
  · have h2 := insertCompleted_contains_self comp t
    simpa [engineStep_cons, applyDirective, ExecutionContext.is_completed] using h2

theorem cancel_terminate_control_flow_witness :
    (engineStep ⟨⟨["a", "b"], [("a", "b")]⟩, Channel.empty, ["a"], [], [], RunStatus.running⟩
        (Directive.cancel "stop")).is_completed "a" = false
    ∧ (engineStep ⟨⟨["a", "b"], [("a", "b")]⟩, Channel.empty, ["a"], [], [], RunStatus.running⟩
        (Directive.cancel "stop")).status = RunStatus.canceled "stop"
    ∧ (engineStep ⟨⟨["a", "b"], [("a", "b")]⟩, Channel.empty, ["a"], [], [], RunStatus.running⟩
        (Directive.terminate "done")).is_completed "a" = true
    ∧ (engineStep ⟨⟨["a", "b"], [("a", "b")]⟩, Channel.empty, ["a"], [], [], RunStatus.running⟩
        (Directive.terminate "done")).status = RunStatus.terminated "done"
    ∧ (engineStep ⟨⟨["a", "b"], [("a", "b")]⟩, Channel.empty, ["a"], [], [], RunStatus.running⟩
        (Directive.terminate "done")).queue = [] :=
  cancel_terminate_control_flow
    ⟨⟨["a", "b"], [("a", "b")]⟩, Channel.empty, ["a"], [], [], RunStatus.running⟩
    "a" [] "stop" "done" rfl rfl

/-- C2: a jump directive with the skip-successors flag set enqueues exactly the
jump target and no normal graph successor; with the flag unset the enqueued
set is the jump target together with all the task's normal graph
successors. -/
theorem jump_goto_enqueue (ctx : ExecutionContext) (t target : TaskId)
    (rest : List TaskId) (hq : ctx.queue = t :: rest) :
    (engineStep ctx (Directive.jump target true)).queue = rest ++ [target]
    ∧ (∀ s : TaskId,
        s ∈ ((engineStep ctx (Directive.jump target true)).queue.drop rest.length)
          ↔ s = target)
    ∧ (engineStep ctx (Directive.jump target false)).queue
        = rest ++ target :: ctx.graph.successors t
    ∧ (∀ s : TaskId,
        s ∈ ((engineStep ctx (Directive.jump target false)).queue.drop rest.length)
          ↔ (s = target ∨ s ∈ ctx.graph.successors t)) := by
  obtain ⟨g, ch, q, comp, cyc, st⟩ := ctx
  change q = t :: rest at hq
  subst hq
  refine ⟨rfl, ?_, rfl, ?_⟩
  · intro s
    simp [engineStep_cons, applyDirective]
  · intro s
    simp [engineStep_cons, applyDirective]

theorem jump_goto_enqueue_witness :
    (engineStep ⟨⟨["a", "b"], [("a", "b")]⟩, Channel.empty, ["a"], [], [], RunStatus.running⟩
        (Directive.jump "c" true)).queue = [] ++ ["c"]
    ∧ (∀ s : TaskId,
        s ∈ ((engineStep ⟨⟨["a", "b"], [("a", "b")]⟩, Channel.empty, ["a"], [], [],
            RunStatus.running⟩ (Directive.jump "c" true)).queue.drop (List.length ([] : List TaskId)))
          ↔ s = "c")
    ∧ (engineStep ⟨⟨["a", "b"], [("a", "b")]⟩, Channel.empty, ["a"], [], [], RunStatus.running⟩
        (Directive.jump "c" false)).queue
        = [] ++ "c" :: (TaskGraph.mk ["a", "b"] [("a", "b")]).successors "a"
    ∧ (∀ s : TaskId,
        s ∈ ((engineStep ⟨⟨["a", "b"], [("a", "b")]⟩, Channel.empty, ["a"], [], [],
            RunStatus.running⟩ (Directive.jump "c" false)).queue.drop (List.length ([] : List TaskId)))
          ↔ (s = "c" ∨ s ∈ (TaskGraph.mk ["a", "b"] [("a", "b")]).successors "a")) :=
  jump_goto_enqueue
    ⟨⟨["a", "b"], [("a", "b")]⟩, Channel.empty, ["a"], [], [], RunStatus.running⟩
    "a" "c" [] rfl

/-- C3: parameter resolution chooses the explicitly injected value when one
exists, otherwise the value bound at task-instance creation when one exists,
otherwise the channel value under that name (bound values always beat channel
values of the same name). -/
theorem parameter_resolution_priority (injections bound : List (String × Val))
    (ch : Channel) (now : Nat) (name : String) :
    (∀ v : Val, injections.lookup name = some v →
        resolve_parameter injections bound ch now name = some v)
    ∧ (injections.lookup name = none →
        ∀ v : Val, bound.lookup name = some v →
          resolve_parameter injections bound ch now name = some v)
    ∧ (injections.lookup name = none → bound.lookup name = none →
        resolve_parameter injections bound ch now name = ch.liveLookup name now) := by
  refine ⟨?_, ?_, ?_⟩
  · intro v hv
    unfold resolve_parameter
    rw [hv]
  · intro hi v hv
    unfold resolve_parameter
    rw [hi, hv]
  · intro hi hb
    unfold resolve_parameter
    rw [hi, hb]

theorem parameter_resolution_priority_witness :
    resolve_parameter [] [("value", Val.int 10)]
      (Channel.empty.set "value" (Val.int 100) Option.none 0) 0 "value"
      = some (Val.int 10) :=
  (parameter_resolution_priority [] [("value", Val.int 10)]
      (Channel.empty.set "value" (Val.int 100) Option.none 0) 0 "value").2.1
    rfl (Val.int 10) (lookup_cons_self "value" (Val.int 10) [])

/-- C4: resuming from a checkpoint created immediately after task `t` completes
normally yields a context in which `t` is completed, `t` is no longer pending,
and every successor of `t` enqueued at checkpoint time is pending; the
checkpoint/resume pair is a round-trip on the progress state. -/
theorem checkpoint_resume_roundtrip (ctx : ExecutionContext) (t : TaskId)
    (rest : List TaskId) (hq : ctx.queue = t :: rest)
    (hrest : t ∉ rest) (hself : t ∉ ctx.graph.successors t) :
    (resume_from_checkpoint (create_checkpoint (engineStep ctx Directive.normal))).is_completed t
        = true
    ∧ t ∉ (resume_from_checkpoint (create_checkpoint (engineStep ctx Directive.normal))).queue
    ∧ (∀ s : TaskId, s ∈ ctx.graph.successors t →
        s ∈ (resume_from_checkpoint (create_checkpoint (engineStep ctx Directive.normal))).queue)
    ∧ (resume_from_checkpoint (create_checkpoint (engineStep ctx Directive.normal))).queue
        = (engineStep ctx Directive.normal).queue
    ∧ (resume_from_checkpoint (create_checkpoint (engineStep ctx Directive.normal))).completed
        = (engineStep ctx Directive.normal).completed
    ∧ (resume_from_checkpoint (create_checkpoint (engineStep ctx Directive.normal))).cycleCounts
        = (engineStep ctx Directive.normal).cycleCounts := by
  obtain ⟨g, ch, q, comp, cyc, st⟩ := ctx
  change q = t :: rest at hq
  change t ∉ TaskGraph.successors g t at hself
  subst hq
  refine ⟨?_, ?_, ?_, rfl, rfl, rfl⟩
  · have h2 := insertCompleted_contains_self comp t
    simpa [engineStep_cons, applyDirective, resume_from_checkpoint, create_checkpoint,
      ExecutionContext.is_completed] using h2
  · simp only [engineStep_cons, applyDirective, resume_from_checkpoint, create_checkpoint]
    intro hmem
    rcases List.mem_append.mp hmem with h1 | h2
    · exact hrest h1
    · exact hself h2
  · intro s hs
    simp only [engineStep_cons, applyDirective, resume_from_checkpoint, create_checkpoint]
    exact List.mem_append.mpr (Or.inr hs)

theorem checkpoint_resume_roundtrip_witness :
    (resume_from_checkpoint (create_checkpoint
        (engineStep ⟨⟨["a", "b"], [("a", "b")]⟩, Channel.empty, ["a"], [], [],
          RunStatus.running⟩ Directive.normal))).is_completed "a" = true
    ∧ "a" ∉ (resume_from_checkpoint (create_checkpoint
        (engineStep ⟨⟨["a", "b"], [("a", "b")]⟩, Channel.empty, ["a"], [], [],
          RunStatus.running⟩ Directive.normal))).queue
    ∧ (∀ s : TaskId, s ∈ (TaskGraph.mk ["a", "b"] [("a", "b")]).successors "a" →
        s ∈ (resume_from_checkpoint (create_checkpoint
          (engineStep ⟨⟨["a", "b"], [("a", "b")]⟩, Channel.empty, ["a"], [], [],
            RunStatus.running⟩ Directive.normal))).queue)
    ∧ (resume_from_checkpoint (create_checkpoint
        (engineStep ⟨⟨["a", "b"], [("a", "b")]⟩, Channel.empty, ["a"], [], [],
          RunStatus.running⟩ Directive.normal))).queue
        = (engineStep ⟨⟨["a", "b"], [("a", "b")]⟩, Channel.empty, ["a"], [], [],
          RunStatus.running⟩ Directive.normal).queue
    ∧ (resume_from_checkpoint (create_checkpoint
        (engineStep ⟨⟨["a", "b"], [("a", "b")]⟩, Channel.empty, ["a"], [], [],
          RunStatus.running⟩ Directive.normal))).completed
        = (engineStep ⟨⟨["a", "b"], [("a", "b")]⟩, Channel.empty, ["a"], [], [],
          RunStatus.running⟩ Directive.normal).completed
    ∧ (resume_from_checkpoint (create_checkpoint
        (engineStep ⟨⟨["a", "b"], [("a", "b")]⟩, Channel.empty, ["a"], [], [],
          RunStatus.running⟩ Directive.normal))).cycleCounts
        = (engineStep ⟨⟨["a", "b"], [("a", "b")]⟩, Channel.empty, ["a"], [], [],
          RunStatus.running⟩ Directive.normal).cycleCounts :=
  checkpoint_resume_roundtrip
    ⟨⟨["a", "b"], [("a", "b")]⟩, Channel.empty, ["a"], [], [], RunStatus.running⟩
    "a" [] rfl (by simp) (by decide)

/-- C5: for a parallel group of four branches of which exactly one fails, the
policy dispatch yields failure under Strict, success (with the three successes
recorded) under BestEffort, success under AtLeastN with min_success = 2, and
failure under Critical whose critical subset contains the failed branch. -/
theorem group_policy_four_branches (a b c d : TaskId)
    (hda : d ≠ a) (hdb : d ≠ b) (hdc : d ≠ c) :
    (evaluate_policy GroupPolicy.strict [a, b, c] [d]).success = false
    ∧ (evaluate_policy GroupPolicy.bestEffort [a, b, c] [d]).success = true
    ∧ (evaluate_policy GroupPolicy.bestEffort [a, b, c] [d]).succeeded = [a, b, c]
    ∧ (evaluate_policy GroupPolicy.bestEffort [a, b, c] [d]).succeeded.length = 3
    ∧ (evaluate_policy (GroupPolicy.atLeastN 2) [a, b, c] [d]).success = true
    ∧ (evaluate_policy (GroupPolicy.critical [d]) [a, b, c] [d]).success = false := by
  refine ⟨rfl, rfl, rfl, rfl, rfl, ?_⟩
  unfold evaluate_policy
  simp [hda, hdb, hdc]

theorem group_policy_four_branches_witness :
    (evaluate_policy GroupPolicy.strict ["b1", "b2", "b3"] ["b4"]).success = false
    ∧ (evaluate_policy GroupPolicy.bestEffort ["b1", "b2", "b3"] ["b4"]).success = true
    ∧ (evaluate_policy GroupPolicy.bestEffort ["b1", "b2", "b3"] ["b4"]).succeeded
        = ["b1", "b2", "b3"]
    ∧ (evaluate_policy GroupPolicy.bestEffort ["b1", "b2", "b3"] ["b4"]).succeeded.length = 3
    ∧ (evaluate_policy (GroupPolicy.atLeastN 2) ["b1", "b2", "b3"] ["b4"]).success = true
    ∧ (evaluate_policy (GroupPolicy.critical ["b4"]) ["b1", "b2", "b3"] ["b4"]).success
        = false :=
  group_policy_four_branches "b1" "b2" "b3" "b4" (by decide) (by decide) (by decide)

/-- C6 counterexample: on a graph with two in-degree-zero nodes and no explicit
start, `resolve_start` raises `GraphCompilationError`, not the
`AmbiguousStartError` named by the claim. -/
theorem resolve_start_error_name_counterexample :
    (TaskGraph.mk ["a", "b"] []).resolve_start
        = Except.error GraflowError.GraphCompilationError
    ∧ GraflowError.GraphCompilationError ≠ GraflowError.AmbiguousStartError :=
  ⟨rfl, by decide⟩

/-- C6 (amended): for a graph with exactly one node of in-degree zero and no
explicitly supplied start, `resolve_start` returns that node; for zero or more
than one in-degree-zero nodes it fails with `GraphCompilationError`. -/
theorem resolve_start_unique_root (g : TaskGraph) :
    (∀ n : TaskId, g.roots = [n] → g.resolve_start = Except.ok n)
    ∧ (g.roots.length ≠ 1 →
        g.resolve_start = Except.error GraflowError.GraphCompilationError) := by
  constructor
  · intro n hn
    unfold TaskGraph.resolve_start
    rw [hn]
  · intro hlen
    unfold TaskGraph.resolve_start
    cases hr : g.roots with
    | nil => rfl
    | cons x xs =>
        cases xs with
        | nil => exact absurd (by rw [hr]; rfl) hlen
        | cons y ys => rfl

theorem resolve_start_unique_root_witness :
    ((TaskGraph.mk ["a", "b"] [("a", "b")]).resolve_start = Except.ok "a")
    ∧ ((TaskGraph.mk ["a", "b"] []).resolve_start
        = Except.error GraflowError.GraphCompilationError) :=
  ⟨(resolve_start_unique_root (TaskGraph.mk ["a", "b"] [("a", "b")])).1 "a" (by decide),
   (resolve_start_unique_root (TaskGraph.mk ["a", "b"] [])).2 (by decide)⟩

/-- C7: a key stored with a TTL behaves as a miss on any read after the expiry
instant — `get` returns the supplied default, `exists` returns false, and the
read removes the expired entry (lazy TTL evaluation). -/
theorem ttl_read_after_expiry (ch : Channel) (key : String) (v : Val)
    (dft : Option Val) (ttl now0 now1 : Nat) (h : now0 + ttl < now1) :
    ((ch.set key v (Option.some ttl) now0).get key dft now1).1 = dft
    ∧ (((ch.set key v (Option.some ttl) now0).get key dft now1).2.entries.lookup key
        = none)
    ∧ ((ch.set key v (Option.some ttl) now0).key_exists key now1).1 = false
    ∧ (((ch.set key v (Option.some ttl) now0).key_exists key now1).2.entries.lookup key
        = none) := by
  have hexp : Entry.expired ⟨v, Option.some (now0 + ttl)⟩ now1 = true := by
    unfold Entry.expired
    simp only [decide_eq_true_eq]
    omega
  have hlk : (ch.set key v (Option.some ttl) now0).entries.lookup key
      = some ⟨v, Option.some (now0 + ttl)⟩ := set_lookup_self ch key v (Option.some ttl) now0
  have hrm : (removeKey (ch.set key v (Option.some ttl) now0).entries key).lookup key
      = none := lookup_removeKey_self _ key
  refine ⟨?_, ?_, ?_, ?_⟩
  · unfold Channel.get
    rw [hlk]
    simp [hexp]
  · unfold Channel.get
    rw [hlk]
    simp only [hexp, if_true]
    exact hrm
  · unfold Channel.key_exists
    rw [hlk]
    simp [hexp]
  · unfold Channel.key_exists
    rw [hlk]
    simp only [hexp, if_true]
    exact hrm

theorem ttl_read_after_expiry_witness :
    ((Channel.empty.set "k" (Val.int 7) (Option.some 1) 0).get "k" Option.none 2).1
        = Option.none
    ∧ (((Channel.empty.set "k" (Val.int 7) (Option.some 1) 0).get "k" Option.none 2).2.entries.lookup "k"
        = none)
    ∧ ((Channel.empty.set "k" (Val.int 7) (Option.some 1) 0).key_exists "k" 2).1 = false
    ∧ (((Channel.empty.set "k" (Val.int 7) (Option.some 1) 0).key_exists "k" 2).2.entries.lookup "k"
        = none) :=
  ttl_read_after_expiry Channel.empty "k" (Val.int 7) Option.none 1 0 2 (by decide)

/-- C8: while a task keeps issuing self-loop directives, each loop increments
its cycle count by exactly 1 and re-enqueues the task itself, and no graph
successor is enqueued until a non-loop directive is eventually issued. -/
theorem self_loop_iteration (ctx : ExecutionContext) (t : TaskId) (ds : List Directive)
    (hq : ctx.queue = [t]) (hds : ∀ d ∈ ds, d = Directive.selfLoop) :
    (engineSteps ctx ds).queue = [t]
    ∧ getCycleCount (engineSteps ctx ds).cycleCounts t
        = getCycleCount ctx.cycleCounts t + ds.length
    ∧ (∀ s : TaskId, s ≠ t → s ∉ (engineSteps ctx ds).queue) := by
  induction ds generalizing ctx with
  | nil =>
      refine ⟨hq, rfl, ?_⟩
      intro s hs hmem
      change s ∈ ctx.queue at hmem
      rw [hq] at hmem
      simp at hmem
      exact hs hmem
  | cons d ds2 ih =>
      have hd : d = Directive.selfLoop := hds d (List.mem_cons_self d ds2)
      subst hd
      obtain ⟨g, ch, q, comp, cyc, st⟩ := ctx
      change q = [t] at hq
      subst hq
      have hstep : engineStep ⟨g, ch, [t], comp, cyc, st⟩ Directive.selfLoop
          = ⟨g, ch, [t], insertCompleted comp t, incrCycle cyc t, st⟩ := rfl
      have ih2 := ih ⟨g, ch, [t], insertCompleted comp t, incrCycle cyc t, st⟩ rfl
        (fun d hd => hds d (List.mem_cons_of_mem _ hd))
      refine ⟨?_, ?_, ?_⟩
      · show (engineSteps (engineStep ⟨g, ch, [t], comp, cyc, st⟩ Directive.selfLoop) ds2).queue
            = [t]
        rw [hstep]
        exact ih2.1
      · show getCycleCount
            (engineSteps (engineStep ⟨g, ch, [t], comp, cyc, st⟩ Directive.selfLoop)
              ds2).cycleCounts t
            = getCycleCount cyc t + (ds2.length + 1)
        rw [hstep, ih2.2.1]
        change getCycleCount (incrCycle cyc t) t + ds2.length = getCycleCount cyc t + (ds2.length + 1)
        rw [getCycleCount_incrCycle_self]
        omega
      · intro s hs
        show s ∉ (engineSteps (engineStep ⟨g, ch, [t], comp, cyc, st⟩ Directive.selfLoop)
            ds2).queue
        rw [hstep]
        exact ih2.2.2 s hs

theorem self_loop_iteration_witness :
    (engineSteps ⟨⟨["a", "b"], [("a", "b")]⟩, Channel.empty, ["a"], [], [], RunStatus.running⟩
        [Directive.selfLoop, Directive.selfLoop]).queue = ["a"]
    ∧ getCycleCount (engineSteps ⟨⟨["a", "b"], [("a", "b")]⟩, Channel.empty, ["a"], [], [],
        RunStatus.running⟩ [Directive.selfLoop, Directive.selfLoop]).cycleCounts "a"
        = getCycleCount [] "a" + 2
    ∧ (∀ s : TaskId, s ≠ "a" →
        s ∉ (engineSteps ⟨⟨["a", "b"], [("a", "b")]⟩, Channel.empty, ["a"], [], [],
          RunStatus.running⟩ [Directive.selfLoop, Directive.selfLoop]).queue) :=
  self_loop_iteration
    ⟨⟨["a", "b"], [("a", "b")]⟩, Channel.empty, ["a"], [], [], RunStatus.running⟩
    "a" [Directive.selfLoop, Directive.selfLoop] rfl (by decide)

/-- How many copies of the joint successor the coordinator has enqueued after
processing a sequence of branch-completion events from state `s`. -/
theorem run_barrier_from_count (total : Nat) (joint : TaskId) (events : List TaskId)
    (s : GroupState) :
    (run_barrier_from total joint s events).enqueued.count joint
      = s.enqueued.count joint
        + (if s.arrived < total ∧ total ≤ s.arrived + events.length then 1 else 0) := by
  induction events generalizing s with
  | nil =>
      rw [run_barrier_from]
      have hne : ¬(s.arrived < total ∧ total ≤ s.arrived + List.length ([] : List TaskId)) := by
        simp only [List.length_nil, Nat.add_zero]
        omega
      rw [if_neg hne]
      simp
  | cons e es ih =>
      obtain ⟨a, q⟩ := s
      rw [run_barrier_from, ih]
      dsimp only
      by_cases h : a + 1 = total
      · have hrep : report_completion total joint ⟨a, q⟩ = ⟨a + 1, q ++ [joint]⟩ := by
          show (if a + 1 = total then (⟨a + 1, q ++ [joint]⟩ : GroupState)
              else ⟨a + 1, q⟩) = ⟨a + 1, q ++ [joint]⟩
          rw [if_pos h]
        rw [hrep]
        dsimp only
        have h1 : ¬(a + 1 < total ∧ total ≤ a + 1 + es.length) := by omega
        have h2 : a < total ∧ total ≤ a + (e :: es).length := by
          simp only [List.length_cons]
          omega
        rw [if_neg h1, if_pos h2]
        simp
      · have hrep : report_completion total joint ⟨a, q⟩ = ⟨a + 1, q⟩ := by
          show (if a + 1 = total then (⟨a + 1, q ++ [joint]⟩ : GroupState)
              else ⟨a + 1, q⟩) = ⟨a + 1, q⟩
          rw [if_neg h]
        rw [hrep]
        dsimp only
        by_cases h2 : a + 1 < total ∧ total ≤ a + 1 + es.length
        · have h3 : a < total ∧ total ≤ a + (e :: es).length := by
            simp only [List.length_cons]
            omega
          rw [if_pos h2, if_pos h3]
        · have h3 : ¬(a < total ∧ total ≤ a + (e :: es).length) := by
            simp only [List.length_cons]
            omega
          rw [if_neg h2, if_neg h3]

/-- C9: for a parallel group of N branches, under every interleaving of branch
completions the joint successor is enqueued exactly once, and it is never
enqueued while fewer than N branches have reported completion at the
barrier. -/
theorem barrier_joint_successor_once (N : Nat) (joint : TaskId)
    (events : List TaskId) (hN : 1 ≤ N) (hlen : events.length = N) :
    (run_barrier N joint events).enqueued.count joint = 1
    ∧ (∀ pre : List TaskId, pre.length < N →
        (run_barrier N joint pre).enqueued.count joint = 0) := by
  constructor
  · unfold run_barrier
    rw [run_barrier_from_count]
    have hc : (0 < N ∧ N ≤ 0 + events.length) := by omega
    rw [if_pos hc]
    simp
  · intro pre hpre
    unfold run_barrier
    rw [run_barrier_from_count]
    have hc : ¬(0 < N ∧ N ≤ 0 + pre.length) := by omega
    rw [if_neg hc]
    simp

theorem barrier_joint_successor_once_witness :
    (run_barrier 3 "join" ["b2", "b1", "b3"]).enqueued.count "join" = 1
    ∧ (∀ pre : List TaskId, pre.length < 3 →
        (run_barrier 3 "join" pre).enqueued.count "join" = 0) :=
  barrier_joint_successor_once 3 "join" ["b2", "b1", "b3"] (by decide) rfl

/-- Appending a sequence of values to a key holding a live list extends the
list on the right, in order. -/
theorem append_fold_live (vs : List Val) (ch : Channel) (key : String) (now : Nat)
    (acc : List Val) (h : ch.liveLookup key now = Option.some (Val.list acc)) :
    (vs.foldl (fun c w => c.append key w Option.none now) ch).liveLookup key now
      = Option.some (Val.list (acc ++ vs)) := by
  induction vs generalizing ch acc with
  | nil => simpa using h
  | cons w ws ih =>
      rw [List.foldl_cons]
      have hcur : ch.currentList key now = acc := currentList_of_live_list ch key now acc h
      have hset : (ch.append key w Option.none now).liveLookup key now
          = Option.some (Val.list (acc ++ [w])) := by
        unfold Channel.append
        rw [hcur]
        exact liveLookup_set_self_noTtl ch key (Val.list (acc ++ [w])) now
      rw [ih (ch.append key w Option.none now) (acc ++ [w]) hset]
      simp

/-- Prepending a sequence of values to a key holding a live list extends the
list on the left, in reverse order of the calls. -/
theorem prepend_fold_live (vs : List Val) (ch : Channel) (key : String) (now : Nat)
    (acc : List Val) (h : ch.liveLookup key now = Option.some (Val.list acc)) :
    (vs.foldl (fun c w => c.prepend key w Option.none now) ch).liveLookup key now
      = Option.some (Val.list (vs.reverse ++ acc)) := by
  induction vs generalizing ch acc with
  | nil => simpa using h
  | cons w ws ih =>
      rw [List.foldl_cons]
      have hcur : ch.currentList key now = acc := currentList_of_live_list ch key now acc h
      have hset : (ch.prepend key w Option.none now).liveLookup key now
          = Option.some (Val.list (w :: acc)) := by
        unfold Channel.prepend
        rw [hcur]
        exact liveLookup_set_self_noTtl ch key (Val.list (w :: acc)) now
      rw [ih (ch.prepend key w Option.none now) (w :: acc) hset]
      simp

/-- C10: for a key not previously bound, appending v1, ..., vn and then reading
the key yields the list [v1, ..., vn] in insertion order, while prepending
v1, ..., vn and then reading yields the reversed list [vn, ..., v1]. -/
theorem list_append_prepend_order (ch : Channel) (key : String) (v0 : Val)
    (vs : List Val) (now : Nat) (h : ch.entries.lookup key = none) :
    (((v0 :: vs).foldl (fun c w => c.append key w Option.none now) ch).get key
        Option.none now).1 = Option.some (Val.list (v0 :: vs))
    ∧ (((v0 :: vs).foldl (fun c w => c.prepend key w Option.none now) ch).get key
        Option.none now).1 = Option.some (Val.list ((v0 :: vs).reverse)) := by
  have hlive : ch.liveLookup key now = Option.none :=
    liveLookup_of_lookup_none ch key now h
  have hcur : ch.currentList key now = [] := currentList_of_live_none ch key now hlive
  constructor
  · rw [List.foldl_cons]
    have hset : (ch.append key v0 Option.none now).liveLookup key now
        = Option.some (Val.list [v0]) := by
      unfold Channel.append
      rw [hcur]
      exact liveLookup_set_self_noTtl ch key (Val.list ([] ++ [v0])) now
    have hfold := append_fold_live vs (ch.append key v0 Option.none now) key now [v0] hset
    exact get_fst_of_live _ key Option.none now _ hfold
  · rw [List.foldl_cons]
    have hset : (ch.prepend key v0 Option.none now).liveLookup key now
        = Option.some (Val.list [v0]) := by
      unfold Channel.prepend
      rw [hcur]
      exact liveLookup_set_self_noTtl ch key (Val.list [v0]) now
    have hfold := prepend_fold_live vs (ch.prepend key v0 Option.none now) key now [v0] hset
    rw [get_fst_of_live _ key Option.none now _ hfold]
    simp

theorem list_append_prepend_order_witness :
    ((([Val.int 1, Val.int 2, Val.int 3]).foldl
        (fun c w => c.append "logs" w Option.none 0) Channel.empty).get "logs"
        Option.none 0).1 = Option.some (Val.list [Val.int 1, Val.int 2, Val.int 3])
    ∧ ((([Val.int 1, Val.int 2, Val.int 3]).foldl
        (fun c w => c.prepend "logs" w Option.none 0) Channel.empty).get "logs"
        Option.none 0).1
        = Option.some (Val.list ([Val.int 1, Val.int 2, Val.int 3].reverse)) :=
  list_append_prepend_order Channel.empty "logs" (Val.int 1) [Val.int 2, Val.int 3] 0 rfl
